import Mathlib

/-!
Verification development for the execution sandbox of this repository
(`src/sandbox.ts`).  The TypeScript functions relevant to the frozen claims
are shallowly embedded as executable Lean definitions: JavaScript strings
become `String` (with character-level operations over `String.data` where
universal reasoning is needed), the mutable `OutputTracker` record becomes
explicit state passing, and the fallible/asynchronous parts of `execute`
become a function of the settled outcome.
-/

namespace Apilens

/-! ## Output tracker (sandbox.ts lines 8-20, 350-366, 425-431)

`MAX_OUTPUT_LINES` / `MAX_OUTPUT_CHARS` are the two output ceilings.
`addLine` is the closure defined inside `Sandbox.buildSandbox`; the tracker
it mutates is modelled by explicit state passing.  JavaScript
`line.length` (UTF-16 code units) is modelled by `String.length`;
`tracker.lines.push(line)` by appending at the end of the list. -/

def MAX_OUTPUT_LINES : Nat := 5000

def MAX_OUTPUT_CHARS : Nat := 500000

structure OutputTracker where
  lines : List String
  charCount : Nat
  truncated : Bool
  truncatedAt : Option (Nat × Nat)
deriving Repr, DecidableEq

/-- The fresh tracker built at the start of `Sandbox.execute`
(`{ lines: [], charCount: 0, truncated: false }`). -/
def emptyTracker : OutputTracker :=
  { lines := [], charCount := 0, truncated := false, truncatedAt := none }

/-- Embedding of the `addLine` closure in `Sandbox.buildSandbox`:
a write is dropped once `truncated` is set; a write that would exceed a
ceiling sets `truncated` and records the cutoff point without storing the
line; otherwise the line is appended and the character count grows. -/
def addLine (t : OutputTracker) (line : String) : OutputTracker :=
  if t.truncated then t
  else if MAX_OUTPUT_LINES ≤ t.lines.length ∨ MAX_OUTPUT_CHARS < t.charCount + line.length then
    { t with truncated := true, truncatedAt := some (t.lines.length, t.charCount) }
  else
    { t with lines := t.lines ++ [line], charCount := t.charCount + line.length }

/-- Sum of the lengths of a list of emitted lines. -/
def totalLen (ls : List String) : Nat := (ls.map String.length).sum

/-! ## Module classifier (sandbox.ts lines 38-72, 305-345)

The JavaScript string operations used by the classifier are embedded at the
character-list level so that they can be reasoned about for arbitrary
specifiers: `jsStartsWith s p` is `s.startsWith(p)`, `jsIncludesChar s c`
is `s.includes(c)` for a one-character needle, `jsSliceFrom s n` is
`s.slice(n)`, and `splitSlash` is `s.split('/')`. -/

def jsStartsWith (s p : String) : Bool := p.data.isPrefixOf s.data

/-- `s.trim()`: JavaScript `String.prototype.trim`, removing leading and
trailing whitespace characters. -/
def jsTrim (s : String) : String :=
  String.mk (((s.data.dropWhile Char.isWhitespace).reverse.dropWhile
    Char.isWhitespace).reverse)

def jsIncludesChar (s : String) (c : Char) : Bool := s.data.contains c

def jsSliceFrom (s : String) (n : Nat) : String := String.mk (s.data.drop n)

/-- `specifier.split('/')`: JavaScript `String.prototype.split` with a
one-character separator; always returns at least one (possibly empty)
segment. -/
def splitSlash : List Char → List (List Char)
  | [] => [[]]
  | c :: rest =>
    match splitSlash rest with
    | [] => [[]]
    | s :: ss => if c = '/' then [] :: s :: ss else (c :: s) :: ss

/-- The regular-expression test `/^[A-Za-z]:[\\/]/.test(specifier)` from
`isPathLike` (Windows drive-letter paths such as `C:\foo`). -/
def isDriveLetterPath (specifier : String) : Bool :=
  match specifier.data with
  | c0 :: c1 :: c2 :: _ =>
    ((('A' ≤ c0 && c0 ≤ 'Z') || ('a' ≤ c0 && c0 ≤ 'z')) && c1 = ':')
      && (c2 = '\\' || c2 = '/')
  | _ => false

/-- Embedding of `isPathLike` (sandbox.ts lines 59-72): relative/absolute
markers, Windows drive-letter paths, and any scheme separator other than
the `node:` builtin scheme make a specifier path-like. -/
def isPathLike (specifier : String) : Bool :=
  if jsStartsWith specifier (".") || jsStartsWith specifier ("/")
      || jsStartsWith specifier ("\\") then true
  else if isDriveLetterPath specifier then true
  else if jsIncludesChar specifier (':') && ! jsStartsWith specifier ("node:") then true
  else false

/-- `specifier.slice('node:'.length)` applied when the specifier starts
with `node:`; the "cleaned" form used by `isBuiltinModule` and when
building `BUILTIN_MODULE_SET`. -/
def dropNodeScheme (s : String) : String :=
  if jsStartsWith s ("node:") then jsSliceFrom s 5 else s

/-- Embedding of `BUILTIN_MODULE_SET` (sandbox.ts lines 38-41): the host
runtime's `builtinModules` list together with every prefix-stripped form.
The Node builtin list itself is environment data, so it is a parameter. -/
def builtinModuleSet (builtins : List String) : List String :=
  builtins ++ builtins.map dropNodeScheme

/-- Embedding of `isBuiltinModule` (sandbox.ts lines 43-46): membership of
the raw and the prefix-stripped specifier is checked against the set. -/
def isBuiltinModule (builtins : List String) (specifier : String) : Bool :=
  decide (specifier ∈ builtinModuleSet builtins)
    || decide (dropNodeScheme specifier ∈ builtinModuleSet builtins)

/-- Embedding of `getPackageRootName` (sandbox.ts lines 48-57): for scoped
specifiers the first two slash-delimited segments, otherwise the first
segment (falling back to the whole specifier when that segment is empty,
as `specifier.split('/')[0] || specifier` does). -/
def getPackageRootName (specifier : String) : String :=
  if jsStartsWith specifier ("@") then
    match splitSlash specifier.data with
    | p0 :: p1 :: _ => String.mk p0 ++ "/" ++ String.mk p1
    | _ => specifier
  else
    match splitSlash specifier.data with
    | p0 :: _ => if p0 = [] then specifier else String.mk p0
    | [] => specifier

/-- Outcome of the classification phase of `Sandbox.safeRequire`
(sandbox.ts lines 305-345).  `denied` models the `fail()` helper throwing
the uniform module-not-available error; `allowedAttempt spec` models
falling through the checks and proceeding to the cache lookup and the real
synchronous load of the trimmed specifier (the load itself touches the
host filesystem and is outside this model). -/
inductive RequireDecision where
  | denied
  | allowedAttempt (spec : String)
deriving Repr, DecidableEq

/-- Embedding of the classification phase of `Sandbox.safeRequire`: the
specifier is trimmed; an empty or path-like specifier is denied; a builtin
specifier is always let through; otherwise the top-level package name must
be in the allowlist (`this.allowedModules.has(root)`). -/
def safeRequireClassify (builtins allow : List String) (m : String) : RequireDecision :=
  if jsTrim m = "" then RequireDecision.denied
  else if isPathLike (jsTrim m) then RequireDecision.denied
  else if isBuiltinModule builtins (jsTrim m) then RequireDecision.allowedAttempt (jsTrim m)
  else if getPackageRootName (jsTrim m) ∈ allow then RequireDecision.allowedAttempt (jsTrim m)
  else RequireDecision.denied

/-! ## Isolated context capabilities (sandbox.ts lines 347-418)

`Sandbox.buildSandbox` returns a plain record used as the global scope of
the isolated context.  Each bound value is modelled by what it closes
over: the console methods and the stdout/stderr stand-ins only reach the
output tracker; `require` only reaches the mediated loader; the timer
functions, `Promise`, and the value constructors are host globals that
hold no host state; `process` is a stub object whose `stdout`/`stderr`
fields are the tracker stand-ins but whose `env` field is the host
process's own environment object (`process.env`).  (`execute` later adds
the two completion callbacks `__resolve__`/`__reject__`, which close over
a promise created for this execution, not over host state.) -/

inductive SandboxAtom where
  | consoleLogger
  | trackerStream
  | hostEnvObject
  | mediatedRequire
  | hostTimer
  | deferredCtor
  | safeCtor
deriving Repr, DecidableEq

structure ProcessStub where
  env : SandboxAtom
  stdout : SandboxAtom
  stderr : SandboxAtom
deriving Repr, DecidableEq

inductive SandboxValue where
  | atom (a : SandboxAtom)
  | processObj (p : ProcessStub)
deriving Repr, DecidableEq

/-- The bindings of the context object built by `Sandbox.buildSandbox`,
in source order (sandbox.ts lines 396-415). -/
def buildSandbox : List (String × SandboxValue) :=
  [("console", SandboxValue.atom SandboxAtom.consoleLogger),
   ("require", SandboxValue.atom SandboxAtom.mediatedRequire),
   ("process", SandboxValue.processObj
      ⟨SandboxAtom.hostEnvObject, SandboxAtom.trackerStream, SandboxAtom.trackerStream⟩),
   ("setTimeout", SandboxValue.atom SandboxAtom.hostTimer),
   ("setInterval", SandboxValue.atom SandboxAtom.hostTimer),
   ("clearTimeout", SandboxValue.atom SandboxAtom.hostTimer),
   ("clearInterval", SandboxValue.atom SandboxAtom.hostTimer),
   ("Promise", SandboxValue.atom SandboxAtom.deferredCtor),
   ("JSON", SandboxValue.atom SandboxAtom.safeCtor),
   ("Buffer", SandboxValue.atom SandboxAtom.safeCtor),
   ("Date", SandboxValue.atom SandboxAtom.safeCtor),
   ("Math", SandboxValue.atom SandboxAtom.safeCtor),
   ("Array", SandboxValue.atom SandboxAtom.safeCtor),
   ("Object", SandboxValue.atom SandboxAtom.safeCtor),
   ("String", SandboxValue.atom SandboxAtom.safeCtor),
   ("Number", SandboxValue.atom SandboxAtom.safeCtor),
   ("Boolean", SandboxValue.atom SandboxAtom.safeCtor),
   ("Error", SandboxValue.atom SandboxAtom.safeCtor)]

/-- Whether a capability atom is a handle onto the host process's ambient
state.  Only `process.env` is: the console, streams and loader close over
the per-execution tracker and classifier; timers, the deferred type and
the value constructors carry no host state. -/
def atomIsHostAmbient : SandboxAtom → Bool
  | SandboxAtom.hostEnvObject => true
  | _ => false

/-- Whether a context binding gives the submitted code a handle onto host
ambient state, directly or through a field of the process stub. -/
def valueExposesHostAmbient : SandboxValue → Bool
  | SandboxValue.atom a => atomIsHostAmbient a
  | SandboxValue.processObj p =>
    atomIsHostAmbient p.env || atomIsHostAmbient p.stdout || atomIsHostAmbient p.stderr

/-! ## Package metadata resolver (sandbox.ts lines 122-175)

`resolveImportEntryFromBasePath` reads and parses the package's
`package.json` and picks an entry point.  The filesystem read and
`JSON.parse` are modelled by a `ManifestFile` input (missing file,
unparsable content, or a parsed JSON document); the final
`path.resolve(packageDir, rel)` is dropped from the model, which returns
the selected entry after the leading `./` strip. -/

inductive Json where
  | str (s : String)
  | num (n : Int)
  | jbool (b : Bool)
  | null
  | arr (elems : List Json)
  | obj (fields : List (String × Json))

/-- JavaScript property access `o[key]` on a parsed JSON value: `none`
models `undefined` (absent property or non-object receiver). -/
def jlookup (j : Json) (key : String) : Option Json :=
  match j with
  | Json.obj fields => (fields.find? (fun f => f.1 == key)).map (fun f => f.2)
  | _ => none

/-- `v && typeof v === 'object'` for a parsed JSON value: objects and
arrays qualify; JSON `null` is of object type but falsy. -/
def isObjectLike : Json → Bool
  | Json.obj _ => true
  | Json.arr _ => true
  | _ => false

/-- `typeof v === 'string' ? v : undefined` for an optional JSON value. -/
def asString : Option Json → Option String
  | some (Json.str s) => some s
  | _ => none

/-- `exportsObj['.'] ?? exportsObj`: the root entry of a conditional
exports object, falling back to the object itself when the `.` key is
absent or null. -/
def rootExportOf (e : Json) : Json :=
  match jlookup e (".") with
  | some Json.null => e
  | some v => v
  | none => e

/-- The exports-derived entry (sandbox.ts lines 141-161): a string
`exports` field is taken as is; otherwise the root entry's `import` form
is preferred, then `default`, then `require`. -/
def exportsEntry (exportsField : Option Json) : Option String :=
  match exportsField with
  | some (Json.str s) => some s
  | some e =>
    if isObjectLike e then
      match rootExportOf e with
      | Json.str s => some s
      | r =>
        if isObjectLike r then
          match asString (jlookup r ("import")) with
          | some s => some s
          | none =>
            match asString (jlookup r ("default")) with
            | some s => some s
            | none => asString (jlookup r ("require"))
        else none
    else none
  | none => none

/-- JavaScript falsiness of the running `entry` value in
`resolveImportEntryFromBasePath`: `undefined` or the empty string. -/
def jsFalsyStr : Option String → Bool
  | none => true
  | some s => s = ""

/-- The full entry-point selection chain of
`resolveImportEntryFromBasePath` (sandbox.ts lines 140-171): the
exports-derived entry, then — while the running value is falsy — the
legacy `module` field, the legacy `main` field, and finally `index.js`. -/
def entryOf (pkgJson : Json) : String :=
  let e1 := exportsEntry (jlookup pkgJson ("exports"))
  let e2 := if jsFalsyStr e1 then
      match asString (jlookup pkgJson ("module")) with
      | some s => some s
      | none => e1
    else e1
  let e3 := if jsFalsyStr e2 then
      match asString (jlookup pkgJson ("main")) with
      | some s => some s
      | none => e2
    else e2
  match e3 with
  | some s => if s = "" then "index.js" else s
  | none => "index.js"

/-- `entry.startsWith('./') ? entry.slice(2) : entry` (sandbox.ts line
173). -/
def stripDotSlash (entry : String) : String :=
  if jsStartsWith entry ("./") then jsSliceFrom entry 2 else entry

/-- The state of the package's `package.json` as seen by the resolver:
missing on disk, present but not valid JSON, or parsed. -/
inductive ManifestFile where
  | missing
  | unparsable
  | parsed (pkgJson : Json)

/-- Embedding of `resolveImportEntryFromBasePath`: `null` when the
manifest is missing or unparsable, otherwise the selected entry point
(after the leading `./` strip; resolution against the package directory
is outside the model). -/
def resolveImportEntry (manifest : ManifestFile) : Option String :=
  match manifest with
  | ManifestFile.missing => none
  | ManifestFile.unparsable => none
  | ManifestFile.parsed p => some (stripDotSlash (entryOf p))

/-- The exports-derived entry in the precedence order the specification
claims, written from the claim's words for comparison: the
synchronous-load (`require`) form first, else the `default` form, else
the asynchronous-load (`import`) form. -/
def claimOrderExportsEntry (exportsField : Option Json) : Option String :=
  match exportsField with
  | some (Json.str s) => some s
  | some e =>
    if isObjectLike e then
      match rootExportOf e with
      | Json.str s => some s
      | r =>
        if isObjectLike r then
          match asString (jlookup r ("require")) with
          | some s => some s
          | none =>
            match asString (jlookup r ("default")) with
            | some s => some s
            | none => asString (jlookup r ("import"))
        else none
    else none
  | none => none

/-- The entry selection as the claim states it (require-first), sharing
the legacy-field tail with the code's chain. -/
def claimOrderEntryOf (pkgJson : Json) : String :=
  let e1 := claimOrderExportsEntry (jlookup pkgJson ("exports"))
  let e2 := if jsFalsyStr e1 then
      match asString (jlookup pkgJson ("module")) with
      | some s => some s
      | none => e1
    else e1
  let e3 := if jsFalsyStr e2 then
      match asString (jlookup pkgJson ("main")) with
      | some s => some s
      | none => e2
    else e2
  match e3 with
  | some s => if s = "" then "index.js" else s
  | none => "index.js"

/-- The resolver as the claim describes it: require-first precedence. -/
def claimOrderResolveImportEntry (manifest : ManifestFile) : Option String :=
  match manifest with
  | ManifestFile.missing => none
  | ManifestFile.unparsable => none
  | ManifestFile.parsed p => some (stripDotSlash (claimOrderEntryOf p))

/-- First string among a list of optional JSON form values (a present
empty string is taken, as `typeof v === 'string'` is). -/
def firstStringForm : List (Option Json) → Option String
  | [] => none
  | c :: rest =>
    match asString c with
    | some s => some s
    | none => firstStringForm rest

/-- First non-falsy value of a candidate chain (a present empty string
falls through, as JavaScript `!entry` treats it). -/
def firstTruthyString : List (Option String) → Option String
  | [] => none
  | c :: rest =>
    match c with
    | some s => if s = "" then firstTruthyString rest else some s
    | none => firstTruthyString rest

/-- The amended precedence for the exports-derived entry, written as the
specification's else-chain with the forms in the order the code actually
uses: the asynchronous-load (`import`) form first, else the `default`
form, else the synchronous-load (`require`) form. -/
def amendedExportsForm (exportsField : Option Json) : Option String :=
  match exportsField with
  | some (Json.str s) => some s
  | some e =>
    if isObjectLike e then
      match rootExportOf e with
      | Json.str s => some s
      | r =>
        if isObjectLike r then
          firstStringForm [jlookup r ("import"), jlookup r ("default"), jlookup r ("require")]
        else none
    else none
  | none => none

/-- The amended entry selection: the exports-derived entry (import-first),
else the legacy `module` field, else the legacy `main` field, else the
default filename `index.js`, where "else" means the previous candidate
was absent or empty. -/
def amendedEntryOf (pkgJson : Json) : String :=
  match firstTruthyString
      [amendedExportsForm (jlookup pkgJson ("exports")),
       asString (jlookup pkgJson ("module")),
       asString (jlookup pkgJson ("main"))] with
  | some s => s
  | none => "index.js"

/-- The amended resolver contract: `null` for a missing or unparsable
manifest, otherwise the import-first entry selection. -/
def amendedResolveImportEntry (manifest : ManifestFile) : Option String :=
  match manifest with
  | ManifestFile.missing => none
  | ManifestFile.unparsable => none
  | ManifestFile.parsed p => some (stripDotSlash (amendedEntryOf p))

/-- A dual-format package manifest declaring both conditional-exports
forms: `{ "exports": { ".": { "require": "./dist/index.cjs", "import":
"./dist/index.mjs" } } }`. -/
def dualFormatManifest : Json :=
  Json.obj [("exports", Json.obj [(".", Json.obj
    [("require", Json.str ("./dist/index.cjs")),
     ("import", Json.str ("./dist/index.mjs"))])])]

/-! ## Execution supervisor (sandbox.ts lines 425-516)

`Sandbox.execute` creates a fresh tracker, clamps the timeout, and then
races the compiled script's completion promise against a deadline timer
inside one `try`/`catch`.  Real time and the event loop cannot be
embedded; the settled outcome of the race and of the fallible preparation
steps is therefore a parameter (`RunOutcome`), and `executeResult` embeds
how the `try`/`catch` assembles the returned record from that outcome and
from the tracker state at the moment of settlement. -/

/-- `Math.min(Math.max(timeoutMs, 1000), 120000)` (sandbox.ts line 433). -/
def clampTimeout (timeoutMs : Int) : Int := min (max timeoutMs 1000) 120000

/-- The message of the `Error` the deadline timer rejects with. -/
def timeoutMessage : String := "Script execution timed out"

/-- How one execution attempt settled. -/
inductive RunOutcome where
  | preloadFailure (msg : String)
  | transformFailure (msg : String)
  | runtimeFailure (msg : String)
  | timedOut
  | completed
deriving Repr, DecidableEq

/-- The message the outer `catch` receives, `none` when no exception
reaches it.  A preload, transform or runtime exception carries its own
message; the deadline timer rejects with `timeoutMessage`. -/
def outcomeMessage : RunOutcome → Option String
  | RunOutcome.preloadFailure msg => some msg
  | RunOutcome.transformFailure msg => some msg
  | RunOutcome.runtimeFailure msg => some msg
  | RunOutcome.timedOut => some timeoutMessage
  | RunOutcome.completed => none

structure ExecutionResult where
  success : Bool
  output : String
  error : Option String
  executionTimeMs : Nat
  outputLineCount : Nat
  outputCharCount : Nat
  truncated : Bool
  truncatedAt : Option (Nat × Nat)
deriving Repr, DecidableEq

/-- The record `Sandbox.execute` returns: the success branch (lines
494-502) when nothing threw, the catch branch (lines 504-515) otherwise.
Both report the tracker's joined lines and counters as they stand at
settlement. -/
def executeResult (tracker : OutputTracker) (elapsed : Nat) (outcome : RunOutcome) : ExecutionResult :=
  match outcomeMessage outcome with
  | none =>
    { success := true
      output := String.intercalate ("\n") tracker.lines
      error := none
      executionTimeMs := elapsed
      outputLineCount := tracker.lines.length
      outputCharCount := tracker.charCount
      truncated := tracker.truncated
      truncatedAt := tracker.truncatedAt }
  | some msg =>
    { success := false
      output := String.intercalate ("\n") tracker.lines
      error := some msg
      executionTimeMs := elapsed
      outputLineCount := tracker.lines.length
      outputCharCount := tracker.charCount
      truncated := tracker.truncated
      truncatedAt := tracker.truncatedAt }

/-- A single output line longer than the whole character budget: 500001
copies of `a`. -/
def hugeLine : String := String.mk (List.replicate 500001 'a')

/-- An emission sequence of 5001 lines whose first line alone overflows
the character ceiling. -/
def overflowEmission : List String := hugeLine :: List.replicate 5000 ""

/-- The output tracker's implicit invariant: the running character count
is the sum of the captured line lengths, and both ceilings hold. -/
def trackerInv (t : OutputTracker) : Prop :=
  t.charCount = totalLen t.lines
    ∧ t.lines.length ≤ MAX_OUTPUT_LINES
    ∧ t.charCount ≤ MAX_OUTPUT_CHARS

/-! ## Helper lemmas -/

lemma string_eq_of_data (s t : String) (h : s.data = t.data) : s = t := by
  cases s; cases t; simp_all

lemma dropWhile_ws_eq_self (l : List Char)
    (h : ∀ c ∈ l, Char.isWhitespace c = false) :
    l.dropWhile Char.isWhitespace = l := by
  cases l with
  | nil => rfl
  | cons a as =>
    rw [List.dropWhile_cons, h a (List.mem_cons_self a as)]
    simp

lemma jsTrim_eq_self (s : String)
    (h : ∀ c ∈ s.data, Char.isWhitespace c = false) : jsTrim s = s := by
  unfold jsTrim
  rw [dropWhile_ws_eq_self s.data h, dropWhile_ws_eq_self s.data.reverse
    (fun c hc => h c (List.mem_reverse.mp hc)), List.reverse_reverse]

lemma data_node_append (x : String) :
    ("node:" ++ x).data = 'n' :: 'o' :: 'd' :: 'e' :: ':' :: x.data := by
  rw [String.data_append]
  rfl

lemma jsStartsWith_node_append (x : String) :
    jsStartsWith ("node:" ++ x) ("node:") = true := by
  unfold jsStartsWith
  rw [String.data_append, List.isPrefixOf_iff_prefix]
  exact List.prefix_append _ _

lemma dropNodeScheme_node_append (x : String) :
    dropNodeScheme ("node:" ++ x) = x := by
  unfold dropNodeScheme
  rw [jsStartsWith_node_append]
  unfold jsSliceFrom
  rw [data_node_append]
  simp

lemma isPathLike_node_append (x : String) :
    isPathLike ("node:" ++ x) = false := by
  unfold isPathLike
  rw [jsStartsWith_node_append]
  have h1 : jsStartsWith ("node:" ++ x) (".") = false := by
    unfold jsStartsWith
    rw [data_node_append]
    simp [List.isPrefixOf]
  have h2 : jsStartsWith ("node:" ++ x) ("/") = false := by
    unfold jsStartsWith
    rw [data_node_append]
    simp [List.isPrefixOf]
  have h3 : jsStartsWith ("node:" ++ x) ("\\") = false := by
    unfold jsStartsWith
    rw [data_node_append]
    simp [List.isPrefixOf]
  have h4 : isDriveLetterPath ("node:" ++ x) = false := by
    unfold isDriveLetterPath
    rw [data_node_append]
    simp
  rw [h1, h2, h3, h4]
  simp

lemma node_append_ne_empty (x : String) : ("node:" ++ x) ≠ "" := by
  intro h
  have := congrArg String.data h
  rw [data_node_append] at this
  simp at this

lemma splitSlash_cons (c : Char) (rest : List Char) :
    splitSlash (c :: rest) = match splitSlash rest with
      | [] => [[]]
      | s :: ss => if c = '/' then [] :: s :: ss else (c :: s) :: ss := rfl

lemma splitSlash_ne_nil (l : List Char) : splitSlash l ≠ [] := by
  cases l with
  | nil => simp [splitSlash]
  | cons c rest =>
    rw [splitSlash_cons]
    cases h : splitSlash rest with
    | nil => simp
    | cons s ss =>
      by_cases hc : c = '/' <;> simp [hc]

lemma splitSlash_append (a b : List Char) (ha : '/' ∉ a) :
    splitSlash (a ++ '/' :: b) = a :: splitSlash b := by
  induction a with
  | nil =>
    simp only [List.nil_append]
    rw [splitSlash_cons]
    cases h : splitSlash b with
    | nil => exact absurd h (splitSlash_ne_nil b)
    | cons s ss => simp
  | cons c cs ih =>
    have hc : c ≠ '/' := by
      intro h
      exact ha (h ▸ List.mem_cons_self c cs)
    have hcs : '/' ∉ cs := fun h => ha (List.mem_cons_of_mem c h)
    simp only [List.cons_append]
    rw [splitSlash_cons, ih hcs]
    simp [hc]

lemma getPackageRootName_subpath (pkg sub : String)
    (hne : pkg ≠ "")
    (hslash : '/' ∉ pkg.data)
    (hat : jsStartsWith pkg ("@") = false) :
    getPackageRootName (pkg ++ "/" ++ sub) = pkg := by
  have hdata : (pkg ++ "/" ++ sub).data = pkg.data ++ '/' :: sub.data := by
    rw [String.data_append, String.data_append]
    simp
  have hdne : pkg.data ≠ [] := by
    intro h
    exact hne (string_eq_of_data pkg "" h)
  obtain ⟨c, cs, hcs⟩ := List.exists_cons_of_ne_nil hdne
  have hcnot : ('@' == c) = false := by
    unfold jsStartsWith at hat
    rw [hcs] at hat
    simpa [List.isPrefixOf] using hat
  have hat2 : jsStartsWith (pkg ++ "/" ++ sub) ("@") = false := by
    unfold jsStartsWith
    rw [hdata, hcs]
    simp only [List.cons_append]
    show (['@'].isPrefixOf (c :: (cs ++ '/' :: sub.data))) = false
    simp [List.isPrefixOf, hcnot]
  unfold getPackageRootName
  rw [hat2, hdata, splitSlash_append pkg.data sub.data hslash]
  show (if pkg.data = [] then pkg ++ "/" ++ sub else String.mk pkg.data) = pkg
  rw [if_neg hdne]

lemma getPackageRootName_scoped (s1 s2 sub : String)
    (h1 : '/' ∉ s1.data) (h2 : '/' ∉ s2.data) :
    getPackageRootName ("@" ++ s1 ++ "/" ++ s2 ++ "/" ++ sub) = "@" ++ s1 ++ "/" ++ s2 := by
  have hdata : ("@" ++ s1 ++ "/" ++ s2 ++ "/" ++ sub).data
      = ('@' :: s1.data) ++ '/' :: (s2.data ++ '/' :: sub.data) := by
    repeat rw [String.data_append]
    simp
  have hat : jsStartsWith ("@" ++ s1 ++ "/" ++ s2 ++ "/" ++ sub) ("@") = true := by
    unfold jsStartsWith
    rw [hdata]
    simp [List.isPrefixOf]
  have hs1 : '/' ∉ ('@' :: s1.data) := by
    intro h
    rcases List.mem_cons.mp h with h | h
    · exact absurd h.symm (by decide)
    · exact h1 h
  unfold getPackageRootName
  rw [hat, hdata, splitSlash_append _ _ hs1, splitSlash_append s2.data sub.data h2]
  simp only [if_true]
  apply string_eq_of_data
  rw [String.data_append, String.data_append, String.data_append]
  simp

lemma classify_allow_iff (builtins allow : List String) (spec : String)
    (ht : jsTrim spec = spec) (hne : spec ≠ "")
    (hp : isPathLike spec = false)
    (hb : isBuiltinModule builtins spec = false) :
    (safeRequireClassify builtins allow spec = RequireDecision.allowedAttempt spec
      ↔ getPackageRootName spec ∈ allow) := by
  unfold safeRequireClassify
  rw [ht, if_neg hne, hp, hb]
  simp only [Bool.false_eq_true, if_false]
  constructor
  · intro h
    by_contra hmem
    rw [if_neg hmem] at h
    exact RequireDecision.noConfusion h
  · intro hmem
    rw [if_pos hmem]

lemma inner_chain_eq (r : Json) :
    (match asString (jlookup r ("import")) with
     | some s => some s
     | none =>
       match asString (jlookup r ("default")) with
       | some s => some s
       | none => asString (jlookup r ("require"))) =
    firstStringForm [jlookup r ("import"), jlookup r ("default"), jlookup r ("require")] := by
  simp only [firstStringForm]
  cases asString (jlookup r ("import")) with
  | none =>
    cases asString (jlookup r ("default")) with
    | none => cases asString (jlookup r ("require")) <;> rfl
    | some s => rfl
  | some s => rfl

lemma exportsEntry_eq_amended (e? : Option Json) :
    exportsEntry e? = amendedExportsForm e? := by
  cases e? with
  | none => rfl
  | some e =>
    cases e with
    | str s => rfl
    | num n => rfl
    | jbool b => rfl
    | null => rfl
    | arr xs =>
      cases hr : rootExportOf (Json.arr xs) with
      | str s => simp [exportsEntry, amendedExportsForm, hr]
      | num n => simp [exportsEntry, amendedExportsForm, hr, isObjectLike]
      | jbool b => simp [exportsEntry, amendedExportsForm, hr, isObjectLike]
      | null => simp [exportsEntry, amendedExportsForm, hr, isObjectLike]
      | arr ys => simp [exportsEntry, amendedExportsForm, hr, isObjectLike, inner_chain_eq]
      | obj fs => simp [exportsEntry, amendedExportsForm, hr, isObjectLike, inner_chain_eq]
    | obj fields =>
      cases hr : rootExportOf (Json.obj fields) with
      | str s => simp [exportsEntry, amendedExportsForm, hr]
      | num n => simp [exportsEntry, amendedExportsForm, hr, isObjectLike]
      | jbool b => simp [exportsEntry, amendedExportsForm, hr, isObjectLike]
      | null => simp [exportsEntry, amendedExportsForm, hr, isObjectLike]
      | arr ys => simp [exportsEntry, amendedExportsForm, hr, isObjectLike, inner_chain_eq]
      | obj fs => simp [exportsEntry, amendedExportsForm, hr, isObjectLike, inner_chain_eq]

lemma entryOf_eq_amended (p : Json) : entryOf p = amendedEntryOf p := by
  unfold entryOf amendedEntryOf
  rw [exportsEntry_eq_amended]
  generalize amendedExportsForm (jlookup p ("exports")) = E
  generalize asString (jlookup p ("module")) = M
  generalize asString (jlookup p ("main")) = N
  simp only [firstTruthyString]
  cases E with
  | none =>
    cases M with
    | none =>
      cases N with
      | none => simp [jsFalsyStr]
      | some n => by_cases hn : n = "" <;> simp [jsFalsyStr, hn]
    | some m =>
      by_cases hm : m = ""
      · cases N with
        | none => simp [jsFalsyStr, hm]
        | some n => by_cases hn : n = "" <;> simp [jsFalsyStr, hm, hn]
      · simp [jsFalsyStr, hm]
  | some e =>
    by_cases he : e = ""
    · cases M with
      | none =>
        cases N with
        | none => simp [jsFalsyStr, he]
        | some n => by_cases hn : n = "" <;> simp [jsFalsyStr, he, hn]
      | some m =>
        by_cases hm : m = ""
        · cases N with
          | none => simp [jsFalsyStr, he, hm]
          | some n => by_cases hn : n = "" <;> simp [jsFalsyStr, he, hm, hn]
        · simp [jsFalsyStr, he, hm]
    · simp [jsFalsyStr, he]

lemma addLine_truncated (t : OutputTracker) (l : String) (h : t.truncated = true) :
    addLine t l = t := by
  unfold addLine
  rw [h]
  simp

lemma foldl_addLine_truncated (t : OutputTracker) (ls : List String) (h : t.truncated = true) :
    List.foldl addLine t ls = t := by
  induction ls with
  | nil => rfl
  | cons l rest ih =>
    rw [List.foldl_cons, addLine_truncated t l h]
    exact ih

lemma totalLen_cons (l : String) (ls : List String) :
    totalLen (l :: ls) = l.length + totalLen ls := by
  simp [totalLen]

lemma addLine_fits (t : OutputTracker) (l : String)
    (ht : t.truncated = false)
    (hl : t.lines.length < MAX_OUTPUT_LINES)
    (hc : t.charCount + l.length ≤ MAX_OUTPUT_CHARS) :
    addLine t l = { t with lines := t.lines ++ [l], charCount := t.charCount + l.length } := by
  unfold addLine
  rw [ht]
  have hcond : ¬ (MAX_OUTPUT_LINES ≤ t.lines.length ∨ MAX_OUTPUT_CHARS < t.charCount + l.length) := by
    push_neg
    exact ⟨hl, hc⟩
  simp only [Bool.false_eq_true, if_false]
  rw [if_neg hcond]

lemma foldl_addLine_fill (ls : List String) : ∀ t : OutputTracker,
    t.truncated = false →
    t.lines.length + ls.length ≤ MAX_OUTPUT_LINES →
    t.charCount + totalLen ls ≤ MAX_OUTPUT_CHARS →
    List.foldl addLine t ls =
      { t with lines := t.lines ++ ls, charCount := t.charCount + totalLen ls } := by
  induction ls with
  | nil =>
    intro t ht _ _
    cases t
    simp [totalLen]
  | cons l rest ih =>
    intro t ht hl hc
    have hlen1 : t.lines.length < MAX_OUTPUT_LINES := by
      simp only [List.length_cons] at hl
      omega
    have hchar1 : t.charCount + l.length ≤ MAX_OUTPUT_CHARS := by
      rw [totalLen_cons] at hc
      omega
    have h2 : ({ t with lines := t.lines ++ [l], charCount := t.charCount + l.length }
        : OutputTracker).truncated = false := ht
    have h3 : ({ t with lines := t.lines ++ [l], charCount := t.charCount + l.length }
        : OutputTracker).lines.length + rest.length ≤ MAX_OUTPUT_LINES := by
      show (t.lines ++ [l]).length + rest.length ≤ MAX_OUTPUT_LINES
      simp only [List.length_cons] at hl
      simp only [List.length_append, List.length_cons, List.length_nil]
      omega
    have h4 : ({ t with lines := t.lines ++ [l], charCount := t.charCount + l.length }
        : OutputTracker).charCount + totalLen rest ≤ MAX_OUTPUT_CHARS := by
      rw [totalLen_cons] at hc
      show t.charCount + l.length + totalLen rest ≤ MAX_OUTPUT_CHARS
      omega
    rw [List.foldl_cons, addLine_fits t l ht hlen1 hchar1, ih _ h2 h3 h4]
    cases t
    simp only [OutputTracker.mk.injEq]
    refine ⟨by simp, ?_, trivial, trivial⟩
    rw [totalLen_cons]
    omega

lemma addLine_inv (t : OutputTracker) (l : String) (h : trackerInv t) :
    trackerInv (addLine t l) := by
  obtain ⟨h1, h2, h3⟩ := h
  unfold addLine trackerInv
  split_ifs with ht hcond
  · exact ⟨h1, h2, h3⟩
  · exact ⟨h1, h2, h3⟩
  · push_neg at hcond
    obtain ⟨hlt, hle⟩ := hcond
    refine ⟨?_, ?_, ?_⟩
    · show t.charCount + l.length = totalLen (t.lines ++ [l])
      simp [totalLen, h1]
    · show (t.lines ++ [l]).length ≤ MAX_OUTPUT_LINES
      simp only [List.length_append, List.length_cons, List.length_nil]
      omega
    · exact hle

lemma foldl_addLine_inv (ls : List String) : ∀ t : OutputTracker,
    trackerInv t → trackerInv (List.foldl addLine t ls) := by
  induction ls with
  | nil => intro t h; exact h
  | cons l rest ih =>
    intro t h
    rw [List.foldl_cons]
    exact ih _ (addLine_inv t l h)

lemma emptyTracker_inv : trackerInv emptyTracker := by
  refine ⟨rfl, ?_, ?_⟩ <;> simp [emptyTracker, MAX_OUTPUT_LINES, MAX_OUTPUT_CHARS]

lemma hugeLine_length : hugeLine.length = 500001 := by
  show (List.replicate 500001 'a').length = 500001
  exact List.length_replicate 500001 'a'

lemma addLine_empty_huge : addLine emptyTracker hugeLine =
    { lines := [], charCount := 0, truncated := true, truncatedAt := some (0, 0) } := by
  unfold addLine
  have hcond : MAX_OUTPUT_LINES ≤ emptyTracker.lines.length
      ∨ MAX_OUTPUT_CHARS < emptyTracker.charCount + hugeLine.length := by
    right
    rw [hugeLine_length]
    show 500000 < 0 + 500001
    omega
  rw [if_neg (by decide), if_pos hcond]
  rfl

/-! ## Claim theorems -/

/-- C1: for every module reference whose canonical (trimmed) form is
path-like — it begins with `.`, `/` or `\`, matches a Windows
drive-letter path, or contains a `:` scheme separator other than the
`node:` prefix — `safeRequire` denies the load with the
module-not-available error, for every allowlist (in particular even when
the reference or its top-level name is allowlisted). -/
theorem c1_pathlike_denied (builtins allow : List String) (m : String)
    (h : isPathLike (jsTrim m) = true) :
    safeRequireClassify builtins allow m = RequireDecision.denied := by
  unfold safeRequireClassify
  split
  · rfl
  · simp [h]

/-- C1 witness: `./evil` is path-like and is denied even when the
allowlist contains both `./evil` and `.`. -/
theorem c1_witness :
    isPathLike (jsTrim ("./evil")) = true
    ∧ safeRequireClassify [] (["./evil", "."]) ("./evil") = RequireDecision.denied :=
  ⟨by decide, c1_pathlike_denied [] (["./evil", "."]) ("./evil") (by decide)⟩

/-- C2 counterexample: the claim that no binding of the context object
gives the submitted code a handle onto the host process's ambient state
is false — the `process` binding's `env` field is the host environment
object. -/
theorem c2_counterexample :
    (("process", SandboxValue.processObj
        ⟨SandboxAtom.hostEnvObject, SandboxAtom.trackerStream, SandboxAtom.trackerStream⟩)
      ∈ buildSandbox)
    ∧ (buildSandbox.any (fun b => valueExposesHostAmbient b.2)) = true := by
  constructor
  · decide
  · decide

/-- C2 amended: the context object contains exactly the stated bindings
(leveled console, mediated require, process stub, four timer functions,
the deferred-computation type, and ten safe value constructors), and no
binding reaches host ambient state except the `process` stub, whose
`env` field is the host environment object while its `stdout`/`stderr`
fields are the tracker-routed stand-ins. -/
theorem c2_amended :
    buildSandbox.map Prod.fst
      = ["console", "require", "process", "setTimeout", "setInterval",
         "clearTimeout", "clearInterval", "Promise", "JSON", "Buffer",
         "Date", "Math", "Array", "Object", "String", "Number", "Boolean",
         "Error"]
    ∧ (∀ b ∈ buildSandbox, valueExposesHostAmbient b.2 = true → b.1 = "process")
    ∧ (buildSandbox.filter (fun b => b.1 == "process")).map Prod.snd
       = [SandboxValue.processObj
           ⟨SandboxAtom.hostEnvObject, SandboxAtom.trackerStream, SandboxAtom.trackerStream⟩] := by
  refine ⟨rfl, ?_, rfl⟩
  decide

/-- C3: every reference naming a host-runtime builtin module is permitted
by `safeRequire`'s classification for every allowlist, both in its
prefix-stripped form and with the `node:` prefix, provided the builtin's
name is a well-formed module name (whitespace-free, non-empty, not
path-like). -/
theorem c3_builtin_permitted (builtins allow : List String) (m : String)
    (hmem : m ∈ builtins)
    (hw : ∀ c ∈ (dropNodeScheme m).data, Char.isWhitespace c = false)
    (hp : isPathLike (dropNodeScheme m) = false)
    (hne : dropNodeScheme m ≠ "") :
    safeRequireClassify builtins allow (dropNodeScheme m)
        = RequireDecision.allowedAttempt (dropNodeScheme m)
    ∧ safeRequireClassify builtins allow ("node:" ++ dropNodeScheme m)
        = RequireDecision.allowedAttempt ("node:" ++ dropNodeScheme m) := by
  have hmem' : dropNodeScheme m ∈ builtinModuleSet builtins :=
    List.mem_append_right _ (List.mem_map_of_mem dropNodeScheme hmem)
  constructor
  · have ht : jsTrim (dropNodeScheme m) = dropNodeScheme m := jsTrim_eq_self _ hw
    unfold safeRequireClassify
    rw [ht, if_neg hne, hp]
    have hb : isBuiltinModule builtins (dropNodeScheme m) = true := by
      unfold isBuiltinModule
      simp [hmem']
    rw [hb]
    simp
  · have hwn : ∀ c ∈ ("node:" ++ dropNodeScheme m).data, Char.isWhitespace c = false := by
      intro c hc
      rw [data_node_append] at hc
      simp only [List.mem_cons] at hc
      rcases hc with rfl | rfl | rfl | rfl | rfl | h
      · decide
      · decide
      · decide
      · decide
      · decide
      · exact hw c h
    have ht : jsTrim ("node:" ++ dropNodeScheme m) = "node:" ++ dropNodeScheme m :=
      jsTrim_eq_self _ hwn
    unfold safeRequireClassify
    rw [ht, if_neg (node_append_ne_empty _), isPathLike_node_append]
    have hb : isBuiltinModule builtins ("node:" ++ dropNodeScheme m) = true := by
      unfold isBuiltinModule
      rw [dropNodeScheme_node_append]
      simp [hmem']
    rw [hb]
    simp

/-- C3 witness: with builtin list `[fs]` and an empty allowlist, both
`fs` and `node:fs` pass classification. -/
theorem c3_witness :
    ("fs" : String) ∈ (["fs"] : List String)
    ∧ safeRequireClassify (["fs"]) [] (dropNodeScheme ("fs"))
        = RequireDecision.allowedAttempt (dropNodeScheme ("fs"))
    ∧ safeRequireClassify (["fs"]) [] ("node:" ++ dropNodeScheme ("fs"))
        = RequireDecision.allowedAttempt ("node:" ++ dropNodeScheme ("fs")) :=
  ⟨by decide,
   (c3_builtin_permitted (["fs"]) [] ("fs") (by decide) (by decide) (by decide) (by decide)).1,
   (c3_builtin_permitted (["fs"]) [] ("fs") (by decide) (by decide) (by decide) (by decide)).2⟩

/-- C4: for a well-formed non-path-like, non-builtin reference,
classification permits it exactly when its top-level package name is in
the allowlist; and the top-level name of a sub-path reference is the
owning package — the first segment for a plain package, the first two
slash-delimited segments for a scoped one — so sub-paths of allowed
packages pass and references with non-allowlisted roots are denied. -/
theorem c4_allowlist_membership (builtins allow : List String)
    (spec pkg s1 s2 sub : String)
    (ht : jsTrim spec = spec) (hne : spec ≠ "")
    (hp : isPathLike spec = false)
    (hb : isBuiltinModule builtins spec = false)
    (hpkgne : pkg ≠ "") (hpkgslash : '/' ∉ pkg.data)
    (hpkgat : jsStartsWith pkg ("@") = false)
    (hs1 : '/' ∉ s1.data) (hs2 : '/' ∉ s2.data) :
    (safeRequireClassify builtins allow spec = RequireDecision.allowedAttempt spec
      ↔ getPackageRootName spec ∈ allow)
    ∧ getPackageRootName (pkg ++ "/" ++ sub) = pkg
    ∧ getPackageRootName ("@" ++ s1 ++ "/" ++ s2 ++ "/" ++ sub) = "@" ++ s1 ++ "/" ++ s2 :=
  ⟨classify_allow_iff builtins allow spec ht hne hp hb,
   getPackageRootName_subpath pkg sub hpkgne hpkgslash hpkgat,
   getPackageRootName_scoped s1 s2 sub hs1 hs2⟩

/-- C4 witness: `lodash/fp` is permitted exactly when `lodash` is
allowlisted, and the root-name computation collapses plain and scoped
sub-paths to their owning package. -/
theorem c4_witness :
    jsTrim ("lodash/fp") = "lodash/fp"
    ∧ isBuiltinModule (["fs"]) ("lodash/fp") = false
    ∧ ((safeRequireClassify (["fs"]) (["lodash"]) ("lodash/fp")
          = RequireDecision.allowedAttempt ("lodash/fp"))
        ↔ getPackageRootName ("lodash/fp") ∈ (["lodash"] : List String))
    ∧ getPackageRootName ("lodash" ++ "/" ++ "fp/deep") = "lodash"
    ∧ getPackageRootName ("@" ++ "scope" ++ "/" ++ "pkg" ++ "/" ++ "fp/deep")
        = "@" ++ "scope" ++ "/" ++ "pkg" := by
  have h := c4_allowlist_membership (["fs"]) (["lodash"]) ("lodash/fp") ("lodash")
    ("scope") ("pkg") ("fp/deep") (by decide) (by decide) (by decide) (by decide)
    (by decide) (by decide) (by decide) (by decide) (by decide)
  exact ⟨by decide, by decide, h.1, h.2.1, h.2.2⟩

/-- C5 counterexample: on a dual-format manifest declaring both a
`require` and an `import` form at the exports root, the resolver picks
the `import` form, not the synchronous `require` form the claim's
precedence order would pick. -/
theorem c5_counterexample :
    resolveImportEntry (ManifestFile.parsed dualFormatManifest) = some ("dist/index.mjs")
    ∧ claimOrderResolveImportEntry (ManifestFile.parsed dualFormatManifest)
        = some ("dist/index.cjs")
    ∧ resolveImportEntry (ManifestFile.parsed dualFormatManifest)
        ≠ claimOrderResolveImportEntry (ManifestFile.parsed dualFormatManifest) := by
  refine ⟨rfl, rfl, ?_⟩
  decide

/-- C5 amended: the entry-point resolver chooses the asynchronous-load
(`import`) form first, else the `default` form, else the
synchronous-load (`require`) form, else the legacy `module` field, else
the legacy `main` field, else the default filename `index.js`; a missing
or unparsable manifest yields null rather than an error. -/
theorem c5_amended_precedence (manifest : ManifestFile) :
    resolveImportEntry manifest = amendedResolveImportEntry manifest := by
  cases manifest with
  | missing => rfl
  | unparsable => rfl
  | parsed p =>
    show some (stripDotSlash (entryOf p)) = some (stripDotSlash (amendedEntryOf p))
    rw [entryOf_eq_amended]

/-- C6: once a tracker's truncated flag is set, any further sequence of
append operations leaves the tracker unchanged — the flag is never
cleared, and no subsequent append adds a line or increases the character
count. -/
theorem c6_truncation_monotone (t : OutputTracker) (ls : List String)
    (h : t.truncated = true) :
    List.foldl addLine t ls = t :=
  foldl_addLine_truncated t ls h

/-- C6 witness: a truncated tracker absorbs two further writes
unchanged. -/
theorem c6_witness :
    (⟨["a"], 1, true, some (1, 1)⟩ : OutputTracker).truncated = true
    ∧ List.foldl addLine ⟨["a"], 1, true, some (1, 1)⟩ (["b", "cc"])
        = (⟨["a"], 1, true, some (1, 1)⟩ : OutputTracker) :=
  ⟨rfl, c6_truncation_monotone _ _ rfl⟩

/-- C7 counterexample: an emission of 5001 lines (more than the 5000-line
ceiling) whose first line alone exceeds the character ceiling yields a
truncated tracker holding 0 lines, not exactly the line ceiling as the
claim states. -/
theorem c7_counterexample :
    MAX_OUTPUT_LINES < overflowEmission.length
    ∧ (List.foldl addLine emptyTracker overflowEmission).truncated = true
    ∧ (List.foldl addLine emptyTracker overflowEmission).lines.length = 0
    ∧ (List.foldl addLine emptyTracker overflowEmission).lines.length ≠ MAX_OUTPUT_LINES := by
  have hfold : List.foldl addLine emptyTracker overflowEmission
      = { lines := [], charCount := 0, truncated := true, truncatedAt := some (0, 0) } := by
    show List.foldl addLine emptyTracker (hugeLine :: List.replicate 5000 "") = _
    rw [List.foldl_cons, addLine_empty_huge]
    exact foldl_addLine_truncated _ _ rfl
  refine ⟨?_, ?_, ?_, ?_⟩
  · show MAX_OUTPUT_LINES < (hugeLine :: List.replicate 5000 "").length
    rw [List.length_cons, List.length_replicate]
    norm_num [MAX_OUTPUT_LINES]
  · rw [hfold]
  · rw [hfold]
    rfl
  · rw [hfold]
    norm_num [MAX_OUTPUT_LINES]

/-- C7 amended: for every emission of more than `MAX_OUTPUT_LINES` lines
whose first `MAX_OUTPUT_LINES` lines stay within the character ceiling,
the tracker ends with exactly the line ceiling captured, the truncated
flag set, and `truncatedAt` equal to the line and character counts held
at the moment of cutoff. -/
theorem c7_truncation_at_line_ceiling (ls : List String)
    (hn : MAX_OUTPUT_LINES < ls.length)
    (hc : totalLen (ls.take MAX_OUTPUT_LINES) ≤ MAX_OUTPUT_CHARS) :
    (List.foldl addLine emptyTracker ls).lines.length = MAX_OUTPUT_LINES
    ∧ (List.foldl addLine emptyTracker ls).truncated = true
    ∧ (List.foldl addLine emptyTracker ls).truncatedAt
        = some (MAX_OUTPUT_LINES, totalLen (ls.take MAX_OUTPUT_LINES))
    ∧ (List.foldl addLine emptyTracker ls).charCount
        = totalLen (ls.take MAX_OUTPUT_LINES) := by
  have hsplit : ls = ls.take MAX_OUTPUT_LINES ++ ls.drop MAX_OUTPUT_LINES :=
    (List.take_append_drop _ _).symm
  have htakelen : (ls.take MAX_OUTPUT_LINES).length = MAX_OUTPUT_LINES := by
    rw [List.length_take]
    omega
  have hfill : List.foldl addLine emptyTracker (ls.take MAX_OUTPUT_LINES) =
      { emptyTracker with
          lines := [] ++ ls.take MAX_OUTPUT_LINES
          charCount := 0 + totalLen (ls.take MAX_OUTPUT_LINES) } := by
    apply foldl_addLine_fill
    · rfl
    · simp [htakelen, emptyTracker]
    · simpa [emptyTracker] using hc
  have hdropne : ls.drop MAX_OUTPUT_LINES ≠ [] := by
    intro h
    have := List.length_drop MAX_OUTPUT_LINES ls
    rw [h] at this
    simp at this
    omega
  obtain ⟨d, rest, hd⟩ := List.exists_cons_of_ne_nil hdropne
  have hT : List.foldl addLine emptyTracker (ls.take MAX_OUTPUT_LINES) =
      { lines := ls.take MAX_OUTPUT_LINES,
        charCount := totalLen (ls.take MAX_OUTPUT_LINES),
        truncated := false,
        truncatedAt := none } := by
    rw [hfill]
    simp [emptyTracker]
  have hstep : addLine
      { lines := ls.take MAX_OUTPUT_LINES,
        charCount := totalLen (ls.take MAX_OUTPUT_LINES),
        truncated := false,
        truncatedAt := none } d =
      { lines := ls.take MAX_OUTPUT_LINES,
        charCount := totalLen (ls.take MAX_OUTPUT_LINES),
        truncated := true,
        truncatedAt := some (MAX_OUTPUT_LINES, totalLen (ls.take MAX_OUTPUT_LINES)) } := by
    unfold addLine
    rw [if_neg (by simp)]
    rw [if_pos (Or.inl (le_of_eq htakelen.symm))]
    rw [htakelen]
  have hfinal : List.foldl addLine emptyTracker ls =
      { lines := ls.take MAX_OUTPUT_LINES,
        charCount := totalLen (ls.take MAX_OUTPUT_LINES),
        truncated := true,
        truncatedAt := some (MAX_OUTPUT_LINES, totalLen (ls.take MAX_OUTPUT_LINES)) } := by
    conv_lhs => rw [hsplit]
    rw [List.foldl_append, hT, hd, List.foldl_cons, hstep]
    exact foldl_addLine_truncated _ rest rfl
  rw [hfinal]
  exact ⟨htakelen, rfl, rfl, rfl⟩

/-- C7 witness: 5001 one-character lines end with exactly 5000 captured
lines, the flag set, and the cutoff recorded. -/
theorem c7_witness :
    MAX_OUTPUT_LINES < (List.replicate 5001 ("x")).length
    ∧ totalLen ((List.replicate 5001 ("x")).take MAX_OUTPUT_LINES) ≤ MAX_OUTPUT_CHARS
    ∧ (List.foldl addLine emptyTracker (List.replicate 5001 ("x"))).lines.length
        = MAX_OUTPUT_LINES
    ∧ (List.foldl addLine emptyTracker (List.replicate 5001 ("x"))).truncated = true := by
  have h1 : MAX_OUTPUT_LINES < (List.replicate 5001 ("x" : String)).length := by
    rw [List.length_replicate]
    norm_num [MAX_OUTPUT_LINES]
  have h2 : totalLen ((List.replicate 5001 ("x" : String)).take MAX_OUTPUT_LINES)
      ≤ MAX_OUTPUT_CHARS := by
    have htake : (List.replicate 5001 ("x" : String)).take MAX_OUTPUT_LINES
        = List.replicate 5000 ("x" : String) := by
      rw [List.take_replicate]
      norm_num [MAX_OUTPUT_LINES]
    rw [htake]
    have hsum : totalLen (List.replicate 5000 ("x" : String)) = 5000 := by
      unfold totalLen
      rw [List.map_replicate, List.sum_replicate]
      simp [show ("x" : String).length = 1 from rfl]
    rw [hsum]
    norm_num [MAX_OUTPUT_CHARS]
  exact ⟨h1, h2, (c7_truncation_at_line_ceiling _ h1 h2).1,
    (c7_truncation_at_line_ceiling _ h1 h2).2.1⟩

/-- C8: the caller-supplied `timeoutMs` is clamped into the fixed
`[1000, 120000]` window, and an execution settled by the deadline timer
yields a result whose success flag is false and whose error message is
the timeout message. -/
theorem c8_timeout_clamped (timeoutMs : Int) (tracker : OutputTracker) (elapsed : Nat) :
    (1000 ≤ clampTimeout timeoutMs ∧ clampTimeout timeoutMs ≤ 120000)
    ∧ (executeResult tracker elapsed RunOutcome.timedOut).success = false
    ∧ (executeResult tracker elapsed RunOutcome.timedOut).error = some timeoutMessage :=
  ⟨⟨le_min (le_max_right _ _) (by norm_num), min_le_right _ _⟩, rfl, rfl⟩

/-- C9: for every settled outcome, the result carries an error message
exactly when its success flag is false, and on every path — success or
any failure — the output field is the tracker's captured lines joined
with newlines; partial output is never discarded. -/
theorem c9_error_iff_failure (tracker : OutputTracker) (elapsed : Nat) (outcome : RunOutcome) :
    ((executeResult tracker elapsed outcome).error.isSome
      ↔ (executeResult tracker elapsed outcome).success = false)
    ∧ (executeResult tracker elapsed outcome).output
        = String.intercalate ("\n") tracker.lines := by
  cases outcome <;> simp [executeResult, outcomeMessage]

/-- C10: after any append sequence from a fresh tracker, the character
count equals the sum of the captured line lengths and both ceilings
hold; and a line whose addition would push the character count past the
ceiling is dropped entirely — the lines and the count are unchanged. -/
theorem c10_tracker_invariants (ls : List String) (t : OutputTracker) (line : String)
    (h1 : t.truncated = false)
    (h2 : MAX_OUTPUT_CHARS < t.charCount + line.length) :
    ((List.foldl addLine emptyTracker ls).charCount
        = totalLen (List.foldl addLine emptyTracker ls).lines
      ∧ (List.foldl addLine emptyTracker ls).lines.length ≤ MAX_OUTPUT_LINES
      ∧ (List.foldl addLine emptyTracker ls).charCount ≤ MAX_OUTPUT_CHARS)
    ∧ (addLine t line).lines = t.lines
    ∧ (addLine t line).charCount = t.charCount := by
  refine ⟨foldl_addLine_inv ls emptyTracker emptyTracker_inv, ?_, ?_⟩
  · unfold addLine
    rw [h1]
    rw [if_neg (by simp)]
    rw [if_pos (Or.inr h2)]
  · unfold addLine
    rw [h1]
    rw [if_neg (by simp)]
    rw [if_pos (Or.inr h2)]

/-- C10 witness: the invariants at a two-line emission, and a one-character
write dropped whole by a tracker already at the character ceiling. -/
theorem c10_witness :
    (⟨[], 500000, false, none⟩ : OutputTracker).truncated = false
    ∧ MAX_OUTPUT_CHARS < (⟨[], 500000, false, none⟩ : OutputTracker).charCount
        + ("y" : String).length
    ∧ ((List.foldl addLine emptyTracker (["ab", "c"])).charCount
        = totalLen (List.foldl addLine emptyTracker (["ab", "c"])).lines
      ∧ (List.foldl addLine emptyTracker (["ab", "c"])).lines.length ≤ MAX_OUTPUT_LINES
      ∧ (List.foldl addLine emptyTracker (["ab", "c"])).charCount ≤ MAX_OUTPUT_CHARS)
    ∧ (addLine ⟨[], 500000, false, none⟩ ("y")).lines = ([] : List String)
    ∧ (addLine ⟨[], 500000, false, none⟩ ("y")).charCount = 500000 := by
  have h := c10_tracker_invariants (["ab", "c"]) ⟨[], 500000, false, none⟩ ("y")
    rfl (by decide)
  exact ⟨rfl, by decide, h.1, h.2.1, h.2.2⟩

end Apilens
